import Mathlib

/-
Verification development for the supply-chain-management repository
(src/src/lpinstance.py).  The file embeds, over exact rationals:

* the instance-file parser `getLPInstance` (lines 24-71 of the source),
* the LP model that `LPSolver.solve` builds (lines 81-118): decision
  variables, the three constraint families, the objective, and the
  solve result handling (objective value on success, -1 otherwise).

Numeric tokens of the input file are modelled by `Tok`: an integer
token, a float token (an exact rational stands in for the parsed
value), or a token that fails numeric parsing.  A file is a list of
lines, each line a list of tokens (Python readline at end of file
yields the empty line, hence `lineAt` defaults to `[]`).  An unreadable
file is `none`.  The external CPLEX solver is modelled as an oracle
from models to an optional objective value.
-/

namespace FacilityLP

/-- Tok models one whitespace-separated token of the input file.
`intTok n` is a token that Python int() and float() both accept,
`floatTok q` one that only float() accepts (value held exactly as a
rational), and `badTok` a token that fails numeric parsing. -/
inductive Tok where
  | intTok (n : ℤ)
  | floatTok (q : ℚ)
  | badTok
deriving DecidableEq

/-- parseIntTok models Python int(token): it succeeds exactly on
integer-shaped tokens. -/
def parseIntTok : Tok → Option ℤ
  | .intTok n => some n
  | _ => none

/-- parseFloatTok models Python float(token): it succeeds on integer
and float tokens alike. -/
def parseFloatTok : Tok → Option ℚ
  | .intTok n => some (n : ℚ)
  | .floatTok q => some q
  | .badTok => none

/-- FileLines is the readable content of an instance file: the list of
its lines, each already split into tokens. -/
abbrev FileLines := List (List Tok)

/-- lineAt ls i is the token list of line i; past the end of the file
Python readline returns the empty string, which splits to no tokens. -/
def lineAt (ls : FileLines) (i : Nat) : List Tok := ls.getD i []

/-- LPInstance mirrors the Python dataclass LPInstance
(src/src/lpinstance.py lines 8-20); numpy arrays become lists of
rationals, matrices lists of rows. -/
structure LPInstance where
  numCustomers : ℤ
  numFacilities : ℤ
  allocCostCF : List (List ℚ)
  demandC : List ℚ
  openingCostF : List ℚ
  capacityF : List ℚ
  numMaxVehiclePerFacility : ℤ
  truckDistLimit : ℚ
  truckUsageCost : ℚ
  distanceCF : List (List ℚ)
deriving DecidableEq

/-- buildMatrix models the fill loops of getLPInstance (source lines
34-38 and 50-54): entry (c, f) is taken from flat position
c * F + f of the raw token line; reading past the end of the raw
list raises IndexError in Python, hence the length guard. -/
def buildMatrix (raw : List ℚ) (C F : Nat) : Option (List (List ℚ)) :=
  if C * F ≤ raw.length then
    some ((List.range C).map fun c => (List.range F).map fun f => raw.getD (c * F + f) 0)
  else none

/-- readPairInt models `a, b = [int(i) for i in line.split()]`: every
token must parse as an int, and the unpacking needs exactly two. -/
def readPairInt (toks : List Tok) : Option (ℤ × ℤ) :=
  match toks.mapM parseIntTok with
  | some [a, b] => some (a, b)
  | _ => none

/-- readPairFloat models `a, b = [float(i) for i in line.split()]`. -/
def readPairFloat (toks : List Tok) : Option (ℚ × ℚ) :=
  match toks.mapM parseFloatTok with
  | some [a, b] => some (a, b)
  | _ => none

/-- getLPInstance embeds the parser of src/src/lpinstance.py lines
24-71.  Any failing step (the Python code raises) falls into the
blanket except clause, which prints a message and returns None; the
embedding returns `none` there.  The `numCustomers < 0 or
numFacilities < 0` branch models numpy.zeros raising ValueError on
negative dimensions (source line 30). -/
def getLPInstance (file : Option FileLines) : Option LPInstance :=
  match file with
  | none => none
  | some ls =>
    match readPairInt (lineAt ls 0) with
    | none => none
    | some (numCustomers, numFacilities) =>
      if numCustomers < 0 ∨ numFacilities < 0 then none else
      match (lineAt ls 1).mapM parseFloatTok with
      | none => none
      | some allocCostraw =>
        match buildMatrix allocCostraw numCustomers.toNat numFacilities.toNat with
        | none => none
        | some allocCostCF =>
          match (lineAt ls 2).mapM parseFloatTok with
          | none => none
          | some demandC =>
            match (lineAt ls 3).mapM parseFloatTok with
            | none => none
            | some openingCostF =>
              match (lineAt ls 4).mapM parseFloatTok with
              | none => none
              | some capacityF =>
                match readPairFloat (lineAt ls 5) with
                | none => none
                | some (truckDistLimit, truckUsageCost) =>
                  match (lineAt ls 6).mapM parseFloatTok with
                  | none => none
                  | some distanceCFraw =>
                    match buildMatrix distanceCFraw numCustomers.toNat numFacilities.toNat with
                    | none => none
                    | some distanceCF =>
                      some { numCustomers := numCustomers
                           , numFacilities := numFacilities
                           , allocCostCF := allocCostCF
                           , demandC := demandC
                           , openingCostF := openingCostF
                           , capacityF := capacityF
                           , numMaxVehiclePerFacility := numCustomers
                           , truckDistLimit := truckDistLimit
                           , truckUsageCost := truckUsageCost
                           , distanceCF := distanceCF }

/-- VarDecl records one docplex continuous variable declaration:
`x[fIdx][cIdx]` with its lower and upper bound.  Every variable the
source declares is continuous (continuous_var_list, source line 89). -/
structure VarDecl where
  fIdx : Nat
  cIdx : Nat
  lb : ℚ
  ub : ℚ
deriving DecidableEq

/-- LinExpr is the term shape of the linear expressions LPSolver.solve
hands to docplex: constants, the variables x[f][c], sums, scalar
multiples, and division by a scalar. -/
inductive LinExpr where
  | const : ℚ → LinExpr
  | var : Nat → Nat → LinExpr
  | add : LinExpr → LinExpr → LinExpr
  | smul : ℚ → LinExpr → LinExpr
  | div : LinExpr → ℚ → LinExpr
deriving DecidableEq

/-- Assignment gives each variable pair (f, c) a rational value. -/
abbrev Assignment := Nat → Nat → ℚ

/-- LinExpr.eval evaluates an expression at an assignment. -/
def LinExpr.eval (x : Assignment) : LinExpr → ℚ
  | .const q => q
  | .var f c => x f c
  | .add a b => a.eval x + b.eval x
  | .smul q e => q * e.eval x
  | .div e q => e.eval x / q

/-- CRel is the comparison of a docplex constraint. -/
inductive CRel where
  | le
  | eq
deriving DecidableEq

/-- LinCon is one posted constraint: expression, relation, bound. -/
structure LinCon where
  lhs : LinExpr
  rel : CRel
  rhs : ℚ
deriving DecidableEq

/-- LPModel is the model LPSolver.solve builds before calling the
external solver: declared variables, posted constraints, and the
minimized objective. -/
structure LPModel where
  vars : List VarDecl
  constraints : List LinCon
  objective : LinExpr
deriving DecidableEq

/-- sumE models Model.sum over a list of expressions. -/
def sumE (l : List LinExpr) : LinExpr := l.foldr .add (.const 0)

/-- scal_prod models Model.scal_prod(terms, coefs): the sum of
coef * term over the paired lists. -/
def scal_prod (terms : List LinExpr) (coefs : List ℚ) : LinExpr :=
  sumE ((terms.zip coefs).map fun tc => LinExpr.smul tc.2 tc.1)

/-- xRow inst f is the Python list x[f]: the variables x[f][c] for c
ranging over the customers. -/
def xRow (inst : LPInstance) (f : Nat) : List LinExpr :=
  (List.range inst.numCustomers.toNat).map fun c => LinExpr.var f c

/-- col m f is the numpy column slice m[:, f]. -/
def col (m : List (List ℚ)) (f : Nat) : List ℚ := m.map fun row => row.getD f 0

/-- solveModel embeds the model construction of LPSolver.solve
(src/src/lpinstance.py lines 89-110): the F * C continuous variables
in [0, 1] (line 89), the demand-coverage equalities (92-93), the
capacity constraints (94-98), the truck-distance constraints (99-100),
and the minimized objective (103-110). -/
def solveModel (inst : LPInstance) : LPModel :=
  let C := inst.numCustomers.toNat
  let F := inst.numFacilities.toNat
  { vars := (List.range F).flatMap fun f => (List.range C).map fun c => ⟨f, c, 0, 1⟩
  , constraints :=
      ((List.range C).map fun c =>
        ⟨sumE ((List.range F).map fun f => LinExpr.var f c), CRel.eq, 1⟩)
      ++ ((List.range F).map fun f =>
        ⟨scal_prod (xRow inst f) inst.demandC, CRel.le, inst.capacityF.getD f 0⟩)
      ++ ((List.range F).map fun f =>
        ⟨LinExpr.div (scal_prod (xRow inst f) (col inst.distanceCF f)) inst.truckDistLimit,
          CRel.le, (inst.numMaxVehiclePerFacility : ℚ)⟩)
  , objective :=
      LinExpr.add (LinExpr.add
        (sumE ((List.range F).map fun f =>
          LinExpr.div (LinExpr.smul (inst.openingCostF.getD f 0)
            (scal_prod (xRow inst f) inst.demandC)) (inst.capacityF.getD f 0)))
        (sumE ((List.range F).map fun f =>
          scal_prod (xRow inst f) (col inst.allocCostCF f))))
        (sumE ((List.range F).map fun f =>
          LinExpr.div (LinExpr.smul inst.truckUsageCost
            (scal_prod (xRow inst f) (col inst.distanceCF f))) inst.truckDistLimit))
  }

/-- conHolds states that an assignment satisfies one constraint. -/
def conHolds (x : Assignment) (con : LinCon) : Prop :=
  match con.rel with
  | .le => con.lhs.eval x ≤ con.rhs
  | .eq => con.lhs.eval x = con.rhs

instance (x : Assignment) (con : LinCon) : Decidable (conHolds x con) := by
  unfold conHolds; exact match con.rel with
  | .le => inferInstanceAs (Decidable (_ ≤ _))
  | .eq => inferInstanceAs (Decidable (_ = _))

/-- SatCons states that an assignment satisfies every posted
constraint of a model. -/
def LPModel.SatCons (m : LPModel) (x : Assignment) : Prop :=
  ∀ con ∈ m.constraints, conHolds x con

/-- feasible states that an assignment respects the declared variable
bounds and satisfies every constraint. -/
def LPModel.feasible (m : LPModel) (x : Assignment) : Prop :=
  (∀ v ∈ m.vars, v.lb ≤ x v.fIdx v.cIdx ∧ x v.fIdx v.cIdx ≤ v.ub) ∧ m.SatCons x

/-- solve embeds the tail of LPSolver.solve (source lines 116-118):
the external solver is an oracle mapping the built model to an
optional objective value; a reported value is returned as is, absence
becomes the sentinel -1. -/
def solve (oracle : LPModel → Option ℚ) (inst : LPInstance) : ℚ :=
  match oracle (solveModel inst) with
  | some v => v
  | none => -1

/-- ConformingOn says the oracle behaves like a correct LP solver on
one particular model: a reported value is attained at a feasible point
and is minimal among feasible points, and absence means the model is
infeasible.  This is the §6 solver contract of the spec. -/
def ConformingOn (oracle : LPModel → Option ℚ) (m : LPModel) : Prop :=
  match oracle m with
  | some v => (∃ x, m.feasible x ∧ m.objective.eval x = v) ∧
      ∀ x, m.feasible x → v ≤ m.objective.eval x
  | none => ∀ x, ¬ m.feasible x

/-- SolverState mirrors LPSolver.__init__ (source lines 77-79): the
parse result is stored as is, even when absent. -/
structure SolverState where
  lpinst : Option LPInstance

/-- mkSolver embeds the LPSolver constructor: it always succeeds and
stores whatever getLPInstance produced. -/
def mkSolver (file : Option FileLines) : SolverState :=
  ⟨getLPInstance file⟩

/-- SolveOutcome distinguishes a completed solve call from the
AttributeError Python raises when solve dereferences a None instance
(the very first statement of solve, source line 84, reads
self.lpinst.numCustomers). -/
inductive SolveOutcome where
  | attributeError
  | result (q : ℚ)
deriving DecidableEq

/-- runSolve embeds a call LPSolver.solve on a stored parse result:
with an absent instance the first attribute access raises, otherwise
the call completes and yields the solve value. -/
def runSolve (oracle : LPModel → Option ℚ) (s : SolverState) : SolveOutcome :=
  match s.lpinst with
  | none => .attributeError
  | some inst => .result (solve oracle inst)

/-- entry m c f reads entry (c, f) of a matrix stored as rows. -/
def entry (m : List (List ℚ)) (c f : Nat) : ℚ := (m.getD c []).getD f 0

/-- spec_coverage follows the spec wording (§4.2): for each customer
c, the sum over all facilities f of x[f][c] equals exactly 1. -/
def spec_coverage (inst : LPInstance) (x : Assignment) : Prop :=
  ∀ c < inst.numCustomers.toNat,
    (∑ f ∈ Finset.range inst.numFacilities.toNat, x f c) = 1

/-- spec_capacity follows the spec wording (§4.2): for each facility
f, the sum over customers c of x[f][c] * demand[c] is at most
capacity[f]. -/
def spec_capacity (inst : LPInstance) (x : Assignment) : Prop :=
  ∀ f < inst.numFacilities.toNat,
    (∑ c ∈ Finset.range inst.numCustomers.toNat, x f c * inst.demandC.getD c 0)
      ≤ inst.capacityF.getD f 0

/-- spec_truck follows the spec wording (§4.2): for each facility f,
the sum over customers c of x[f][c] * distance[c][f], divided by
truckDistanceLimit, is at most maxVehiclesPerFacility. -/
def spec_truck (inst : LPInstance) (x : Assignment) : Prop :=
  ∀ f < inst.numFacilities.toNat,
    (∑ c ∈ Finset.range inst.numCustomers.toNat, x f c * entry inst.distanceCF c f)
      / inst.truckDistLimit ≤ (inst.numMaxVehiclePerFacility : ℚ)

/-- spec_objective follows the spec wording (§4.2): the sum over
facilities of the prorated opening cost, the allocation cost, and the
truck usage cost. -/
def spec_objective (inst : LPInstance) (x : Assignment) : ℚ :=
  ∑ f ∈ Finset.range inst.numFacilities.toNat,
    (inst.openingCostF.getD f 0
        * (∑ c ∈ Finset.range inst.numCustomers.toNat, x f c * inst.demandC.getD c 0)
        / inst.capacityF.getD f 0
      + (∑ c ∈ Finset.range inst.numCustomers.toNat, x f c * entry inst.allocCostCF c f)
      + inst.truckUsageCost
        * (∑ c ∈ Finset.range inst.numCustomers.toNat, x f c * entry inst.distanceCF c f)
        / inst.truckDistLimit)

/-- WellShaped is the §3 dimension invariant of the data model: every
array has the length the declared dimensions prescribe. -/
def WellShaped (inst : LPInstance) : Prop :=
  inst.allocCostCF.length = inst.numCustomers.toNat ∧
  (∀ row ∈ inst.allocCostCF, row.length = inst.numFacilities.toNat) ∧
  inst.demandC.length = inst.numCustomers.toNat ∧
  inst.openingCostF.length = inst.numFacilities.toNat ∧
  inst.capacityF.length = inst.numFacilities.toNat ∧
  inst.distanceCF.length = inst.numCustomers.toNat ∧
  (∀ row ∈ inst.distanceCF, row.length = inst.numFacilities.toNat)

instance (inst : LPInstance) : Decidable (WellShaped inst) := by
  unfold WellShaped; infer_instance

/-- wfFile is the §4.1 well-formed file format: seven lines, the
declared dimensions on line one, and every line carrying exactly the
prescribed number of numerically parseable tokens. -/
def wfFile (ls : FileLines) (C F : Nat) : Prop :=
  ls.length = 7 ∧
  (lineAt ls 0).mapM parseIntTok = some [(C : ℤ), (F : ℤ)] ∧
  (∃ v, (lineAt ls 1).mapM parseFloatTok = some v ∧ v.length = C * F) ∧
  (∃ v, (lineAt ls 2).mapM parseFloatTok = some v ∧ v.length = C) ∧
  (∃ v, (lineAt ls 3).mapM parseFloatTok = some v ∧ v.length = F) ∧
  (∃ v, (lineAt ls 4).mapM parseFloatTok = some v ∧ v.length = F) ∧
  (∃ v, (lineAt ls 5).mapM parseFloatTok = some v ∧ v.length = 2) ∧
  (∃ v, (lineAt ls 6).mapM parseFloatTok = some v ∧ v.length = C * F)

/-- goodFile is a well-formed two-customer, two-facility instance file
(the §8 scenario shapes). -/
def goodFile : FileLines :=
  [ [.intTok 2, .intTok 2]
  , [.floatTok 1, .floatTok 2, .floatTok 2, .floatTok 1]
  , [.floatTok 10, .floatTok 10]
  , [.floatTok 5, .floatTok 5]
  , [.floatTok 20, .floatTok 20]
  , [.floatTok 100, .floatTok 1]
  , [.floatTok 1, .floatTok 1, .floatTok 1, .floatTok 1] ]

/-- goodInst is the instance goodFile parses to. -/
def goodInst : LPInstance :=
  { numCustomers := 2
  , numFacilities := 2
  , allocCostCF := [[1, 2], [2, 1]]
  , demandC := [10, 10]
  , openingCostF := [5, 5]
  , capacityF := [20, 20]
  , numMaxVehiclePerFacility := 2
  , truckDistLimit := 100
  , truckUsageCost := 1
  , distanceCF := [[1, 1], [1, 1]] }

/-- badCountFile declares one customer and one facility but puts two
tokens on the demand line (line 3), a wrong token count the spec says
the parser must reject. -/
def badCountFile : FileLines :=
  [ [.intTok 1, .intTok 1]
  , [.floatTok 5]
  , [.floatTok 2, .floatTok 3]
  , [.floatTok 1]
  , [.floatTok 10]
  , [.floatTok 100, .floatTok 1]
  , [.floatTok 4] ]

/-- badCountInst is the instance badCountFile nevertheless parses to:
its demand array has two entries although numCustomers is 1. -/
def badCountInst : LPInstance :=
  { numCustomers := 1
  , numFacilities := 1
  , allocCostCF := [[5]]
  , demandC := [2, 3]
  , openingCostF := [1]
  , capacityF := [10]
  , numMaxVehiclePerFacility := 1
  , truckDistLimit := 100
  , truckUsageCost := 1
  , distanceCF := [[4]] }

/-- negCostFile is a well-formed file whose single allocation cost is
negative; every feasible point of its model has objective exactly -1. -/
def negCostFile : FileLines :=
  [ [.intTok 1, .intTok 1]
  , [.floatTok (-1)]
  , [.floatTok 1]
  , [.floatTok 0]
  , [.floatTok 1]
  , [.floatTok 1, .floatTok 0]
  , [.floatTok 0] ]

/-- negCostInst is the instance negCostFile parses to. -/
def negCostInst : LPInstance :=
  { numCustomers := 1
  , numFacilities := 1
  , allocCostCF := [[-1]]
  , demandC := [1]
  , openingCostF := [0]
  , capacityF := [1]
  , numMaxVehiclePerFacility := 1
  , truckDistLimit := 1
  , truckUsageCost := 0
  , distanceCF := [[0]] }

/-- negOracle is a solver oracle that reports an optimal solution of
value -1; on the model of negCostInst this is the conforming answer. -/
def negOracle : LPModel → Option ℚ := fun _ => some (-1)

/-- noneOracle is a solver oracle that reports no solution. -/
def noneOracle : LPModel → Option ℚ := fun _ => none

/-- infeasInst is a well-shaped instance whose total capacity 1 is
below its total demand 2. -/
def infeasInst : LPInstance :=
  { numCustomers := 1
  , numFacilities := 1
  , allocCostCF := [[1]]
  , demandC := [2]
  , openingCostF := [1]
  , capacityF := [1]
  , numMaxVehiclePerFacility := 1
  , truckDistLimit := 1
  , truckUsageCost := 1
  , distanceCF := [[1]] }

theorem eval_sumE (x : Assignment) (l : List LinExpr) :
    (sumE l).eval x = (l.map (LinExpr.eval x)).sum := by
  induction l with
  | nil => simp [sumE, LinExpr.eval]
  | cons a t ih => simp [sumE, LinExpr.eval] at ih ⊢; rw [ih]

theorem sum_map_range {M : Type} [AddCommMonoid M] (n : Nat) (g : Nat → M) :
    ((List.range n).map g).sum = ∑ i ∈ Finset.range n, g i := by
  induction n with
  | zero => simp
  | succ k ih => rw [List.range_succ]; simp [Finset.sum_range_succ, ih]

theorem eval_scal_prod (x : Assignment) (terms : List LinExpr) (coefs : List ℚ) :
    (scal_prod terms coefs).eval x
      = ((terms.zip coefs).map fun p => p.2 * p.1.eval x).sum := by
  simp only [scal_prod, eval_sumE, List.map_map]
  congr 1

theorem zip_var_range (f C : Nat) (coefs : List ℚ) (h : coefs.length = C) :
    ((List.range C).map (LinExpr.var f)).zip coefs
      = (List.range C).map fun c => (LinExpr.var f c, coefs.getD c 0) := by
  apply List.ext_getElem
  · simp [h]
  · intro i h1 h2
    have hi : i < C := by simpa using h2
    have hic : i < coefs.length := by omega
    simp [List.getElem_zip, List.getElem_map, List.getElem_range,
      List.getD_eq_getElem?_getD, List.getElem?_eq_getElem hic]

theorem eval_scal_prod_row (x : Assignment) (f C : Nat) (coefs : List ℚ)
    (h : coefs.length = C) :
    (scal_prod ((List.range C).map (LinExpr.var f)) coefs).eval x
      = ∑ c ∈ Finset.range C, coefs.getD c 0 * x f c := by
  rw [eval_scal_prod, zip_var_range f C coefs h, List.map_map]
  rw [← sum_map_range]
  congr 1

theorem list_sum_getD (l : List ℚ) :
    l.sum = ∑ i ∈ Finset.range l.length, l.getD i 0 := by
  induction l with
  | nil => simp
  | cons a t ih =>
    rw [List.sum_cons, ih, List.length_cons, Finset.sum_range_succ']
    simp [add_comm]

theorem buildMatrix_eq (raw : List ℚ) (C F : Nat) (h : C * F ≤ raw.length) :
    buildMatrix raw C F
      = some ((List.range C).map fun c =>
          (List.range F).map fun f => raw.getD (c * F + f) 0) := by
  simp [buildMatrix, h]

theorem map_getD_drop (raw : List ℚ) (s F : Nat) (h : s + F ≤ raw.length) :
    (List.range F).map (fun f => raw.getD (s + f) 0) = (raw.drop s).take F := by
  apply List.ext_getElem
  · simp; omega
  · intro i h1 h2
    have hi : i < F := by simpa using h1
    have hsi : s + i < raw.length := by omega
    simp [List.getElem_map, List.getElem_range, List.getElem_take, List.getElem_drop,
      List.getD_eq_getElem?_getD, List.getElem?_eq_getElem hsi]

theorem flatten_build (raw : List ℚ) (F : Nat) :
    ∀ C, C * F ≤ raw.length →
      ((List.range C).map fun c =>
        (List.range F).map fun f => raw.getD (c * F + f) 0).flatten
        = raw.take (C * F) := by
  intro C
  induction C with
  | zero => simp
  | succ k ih =>
    intro h
    have hsm : (k + 1) * F = k * F + F := by ring
    rw [hsm] at h ⊢
    have hk : k * F ≤ raw.length := le_trans (Nat.le_add_right _ _) h
    rw [List.range_succ, List.map_append, List.flatten_append, ih hk]
    simp only [List.map_cons, List.map_nil, List.flatten_cons, List.flatten_nil,
      List.append_nil]
    rw [map_getD_drop raw (k * F) F h, List.take_add]

theorem length_varList (F C : Nat) :
    ((List.range F).flatMap fun f =>
      (List.range C).map fun c => (⟨f, c, 0, 1⟩ : VarDecl)).length = F * C := by
  induction F with
  | zero => simp
  | succ k ih =>
    rw [List.range_succ, List.flatMap_append]
    simp [ih, Nat.succ_mul]

theorem col_getD (m : List (List ℚ)) (f c : Nat) :
    (col m f).getD c 0 = entry m c f := by
  simp only [col, entry, List.getD_eq_getElem?_getD, List.getElem?_map]
  cases h : m[c]? <;> simp

theorem col_length (m : List (List ℚ)) (f : Nat) : (col m f).length = m.length := by
  simp [col]

theorem satCons_iff (inst : LPInstance) (x : Assignment) (hs : WellShaped inst) :
    (solveModel inst).SatCons x ↔
      spec_coverage inst x ∧ spec_capacity inst x ∧ spec_truck inst x := by
  obtain ⟨hA, hArows, hD, hO, hK, hDist, hDistRows⟩ := hs
  have hcov : ∀ c, LinExpr.eval x
        (sumE ((List.range inst.numFacilities.toNat).map fun f => LinExpr.var f c))
      = ∑ f ∈ Finset.range inst.numFacilities.toNat, x f c := by
    intro c
    rw [eval_sumE, List.map_map, ← sum_map_range]
    congr 1
  have hcap : ∀ f, LinExpr.eval x (scal_prod (xRow inst f) inst.demandC)
      = ∑ c ∈ Finset.range inst.numCustomers.toNat, x f c * inst.demandC.getD c 0 := by
    intro f
    rw [xRow, eval_scal_prod_row x f inst.numCustomers.toNat inst.demandC hD]
    exact Finset.sum_congr rfl fun c _ => mul_comm _ _
  have htr : ∀ f, LinExpr.eval x (scal_prod (xRow inst f) (col inst.distanceCF f))
      = ∑ c ∈ Finset.range inst.numCustomers.toNat, x f c * entry inst.distanceCF c f := by
    intro f
    rw [xRow, eval_scal_prod_row x f inst.numCustomers.toNat _
      (by rw [col_length, hDist])]
    exact Finset.sum_congr rfl fun c _ => by rw [col_getD, mul_comm]
  simp only [LPModel.SatCons, solveModel, List.forall_mem_append, List.forall_mem_map,
    List.mem_range, spec_coverage, spec_capacity, spec_truck, conHolds, and_assoc]
  constructor
  · rintro ⟨h1, h2, h3⟩
    refine ⟨fun c hc => ?_, fun f hf => ?_, fun f hf => ?_⟩
    · have := h1 c hc; simpa [hcov c] using this
    · have := h2 f hf; simpa [hcap f] using this
    · have := h3 f hf; simpa [LinExpr.eval, htr f] using this
  · rintro ⟨h1, h2, h3⟩
    refine ⟨fun c hc => ?_, fun f hf => ?_, fun f hf => ?_⟩
    · simpa [hcov c] using h1 c hc
    · simpa [hcap f] using h2 f hf
    · simpa [LinExpr.eval, htr f] using h3 f hf

theorem objective_eval (inst : LPInstance) (x : Assignment) (hs : WellShaped inst) :
    (solveModel inst).objective.eval x = spec_objective inst x := by
  obtain ⟨hA, hArows, hD, hO, hK, hDist, hDistRows⟩ := hs
  have hcap : ∀ f, LinExpr.eval x (scal_prod (xRow inst f) inst.demandC)
      = ∑ c ∈ Finset.range inst.numCustomers.toNat, x f c * inst.demandC.getD c 0 := by
    intro f
    rw [xRow, eval_scal_prod_row x f inst.numCustomers.toNat inst.demandC hD]
    exact Finset.sum_congr rfl fun c _ => mul_comm _ _
  have hal : ∀ f, LinExpr.eval x (scal_prod (xRow inst f) (col inst.allocCostCF f))
      = ∑ c ∈ Finset.range inst.numCustomers.toNat, x f c * entry inst.allocCostCF c f := by
    intro f
    rw [xRow, eval_scal_prod_row x f inst.numCustomers.toNat _ (by rw [col_length, hA])]
    exact Finset.sum_congr rfl fun c _ => by rw [col_getD, mul_comm]
  have htr : ∀ f, LinExpr.eval x (scal_prod (xRow inst f) (col inst.distanceCF f))
      = ∑ c ∈ Finset.range inst.numCustomers.toNat, x f c * entry inst.distanceCF c f := by
    intro f
    rw [xRow, eval_scal_prod_row x f inst.numCustomers.toNat _ (by rw [col_length, hDist])]
    exact Finset.sum_congr rfl fun c _ => by rw [col_getD, mul_comm]
  have key : ∀ g : Nat → LinExpr,
      LinExpr.eval x (sumE ((List.range inst.numFacilities.toNat).map g))
        = ∑ f ∈ Finset.range inst.numFacilities.toNat, LinExpr.eval x (g f) := by
    intro g
    rw [eval_sumE, List.map_map, ← sum_map_range]
    congr 1
  simp only [solveModel, LinExpr.eval]
  rw [key, key, key, ← Finset.sum_add_distrib, ← Finset.sum_add_distrib]
  unfold spec_objective
  refine Finset.sum_congr rfl fun f hf => ?_
  simp only [LinExpr.eval]
  rw [hcap f, hal f, htr f]

/-- C1: for every parsed instance (with the §3 shape invariant), the
model built by solve contains exactly three constraint families and no
others: the count of posted constraints is numCustomers plus twice
numFacilities, and an assignment satisfies them all exactly when it
satisfies the demand-coverage equalities, the capacity bounds, and the
truck-distance caps as the spec states them. -/
theorem C1_constraint_families (inst : LPInstance) (x : Assignment)
    (hs : WellShaped inst) :
    (solveModel inst).constraints.length
      = inst.numCustomers.toNat + 2 * inst.numFacilities.toNat ∧
    ((solveModel inst).SatCons x ↔
      spec_coverage inst x ∧ spec_capacity inst x ∧ spec_truck inst x) :=
  ⟨by simp only [solveModel, List.length_append, List.length_map, List.length_range]; omega,
   satCons_iff inst x hs⟩

/-- C1 witness: the two-customer, two-facility instance goodInst with
the half-and-half assignment. -/
theorem C1_witness :
    WellShaped goodInst ∧
    ((solveModel goodInst).constraints.length
        = goodInst.numCustomers.toNat + 2 * goodInst.numFacilities.toNat ∧
      ((solveModel goodInst).SatCons (fun _ _ => (1 : ℚ) / 2) ↔
        spec_coverage goodInst (fun _ _ => (1 : ℚ) / 2) ∧
        spec_capacity goodInst (fun _ _ => (1 : ℚ) / 2) ∧
        spec_truck goodInst (fun _ _ => (1 : ℚ) / 2))) :=
  ⟨by decide, C1_constraint_families goodInst (fun _ _ => (1 : ℚ) / 2) (by decide)⟩

/-- C2: for every parsed instance (with the §3 shape invariant) whose
capacities and truck distance limit are nonzero, the minimized
objective submitted to the solver evaluates, at every assignment, to
the three-term sum the spec states: prorated opening cost plus
allocation cost plus truck usage cost. -/
theorem C2_objective (inst : LPInstance) (x : Assignment) (hs : WellShaped inst)
    (hcap : ∀ q ∈ inst.capacityF, q ≠ 0) (htdl : inst.truckDistLimit ≠ 0) :
    (solveModel inst).objective.eval x = spec_objective inst x :=
  objective_eval inst x hs

/-- C2 witness: goodInst with the half-and-half assignment; its
capacities are 20 and its truck distance limit is 100, all nonzero. -/
theorem C2_witness :
    WellShaped goodInst ∧ (∀ q ∈ goodInst.capacityF, q ≠ 0) ∧
      goodInst.truckDistLimit ≠ 0 ∧
    (solveModel goodInst).objective.eval (fun _ _ => (1 : ℚ) / 2)
      = spec_objective goodInst (fun _ _ => (1 : ℚ) / 2) :=
  ⟨by decide, by decide, by decide,
   C2_objective goodInst (fun _ _ => (1 : ℚ) / 2) (by decide) (by decide) (by decide)⟩

/-- C9: for every instance, the model built by solve declares exactly
numFacilities times numCustomers decision variables, pairwise
distinct, and the declared variables are exactly the x[f][c] for
f below numFacilities and c below numCustomers, each with lower bound
0 and upper bound 1 (all variables of the model type are continuous,
as in continuous_var_list). -/
theorem C9_variables (inst : LPInstance) :
    (solveModel inst).vars.length
      = inst.numFacilities.toNat * inst.numCustomers.toNat ∧
    (solveModel inst).vars.Nodup ∧
    ∀ v : VarDecl, v ∈ (solveModel inst).vars ↔
      (v.fIdx < inst.numFacilities.toNat ∧ v.cIdx < inst.numCustomers.toNat ∧
        v.lb = 0 ∧ v.ub = 1) := by
  refine ⟨?_, ?_, ?_⟩
  · simp only [solveModel]
    exact length_varList _ _
  · simp only [solveModel]
    rw [List.nodup_flatMap]
    constructor
    · intro f _
      refine List.Nodup.map ?_ (List.nodup_range _)
      intro a b h
      simpa using congrArg VarDecl.cIdx h
    · refine (List.pairwise_lt_range _).imp ?_
      intro a b hab
      intro v hva hvb
      simp only [List.mem_map, List.mem_range] at hva hvb
      obtain ⟨c1, _, rfl⟩ := hva
      obtain ⟨c2, _, h2⟩ := hvb
      have : a = b := by simpa using congrArg VarDecl.fIdx h2.symm
      omega
  · intro v
    simp only [solveModel, List.mem_flatMap, List.mem_map, List.mem_range]
    constructor
    · rintro ⟨f, hf, c, hc, rfl⟩
      exact ⟨hf, hc, rfl, rfl⟩
    · rintro ⟨hf, hc, hlb, hub⟩
      refine ⟨v.fIdx, hf, v.cIdx, hc, ?_⟩
      cases v
      simp_all

/-- C8: for every successfully parsed instance, maxVehiclesPerFacility
is not read from the input file but set equal to the parsed
numCustomers (source line 28). -/
theorem C8_maxVehicles (file : Option FileLines) (inst : LPInstance)
    (h : getLPInstance file = some inst) :
    inst.numMaxVehiclePerFacility = inst.numCustomers := by
  unfold getLPInstance at h
  repeat' split at h
  all_goals (try exact Option.noConfusion h)
  injection h with h
  subst h
  rfl

/-- C8 witness: goodFile parses to goodInst, whose vehicle cap equals
its customer count. -/
theorem C8_witness :
    getLPInstance (some goodFile) = some goodInst ∧
    goodInst.numMaxVehiclePerFacility = goodInst.numCustomers :=
  ⟨by decide, C8_maxVehicles (some goodFile) goodInst (by decide)⟩

theorem parse_none_line0 (ls : FileLines)
    (h : readPairInt (lineAt ls 0) = none) : getLPInstance (some ls) = none := by
  unfold getLPInstance
  (repeat' split) <;> first | rfl | simp_all

theorem parse_none_neg (ls : FileLines) (C F : ℤ)
    (h0 : readPairInt (lineAt ls 0) = some (C, F)) (hneg : C < 0 ∨ F < 0) :
    getLPInstance (some ls) = none := by
  unfold getLPInstance
  (repeat' split) <;> first | rfl | (simp_all; omega)

theorem parse_none_floats (ls : FileLines) (k : Nat) (hk : k ∈ [1, 2, 3, 4, 6])
    (h : (lineAt ls k).mapM parseFloatTok = none) :
    getLPInstance (some ls) = none := by
  unfold getLPInstance
  simp only [List.mem_cons, List.not_mem_nil, or_false] at hk
  rcases hk with rfl | rfl | rfl | rfl | rfl <;>
    (repeat' split) <;> first | rfl | simp_all [readPairFloat]

theorem parse_none_line5 (ls : FileLines)
    (h : readPairFloat (lineAt ls 5) = none) : getLPInstance (some ls) = none := by
  unfold getLPInstance
  (repeat' split) <;> first | rfl | simp_all

theorem buildMatrix_short (raw : List ℚ) (C F : Nat)
    (h : raw.length < C * F) : buildMatrix raw C F = none := by
  unfold buildMatrix
  rw [if_neg (by omega)]

theorem parse_none_alloc_short (ls : FileLines) (C F : ℤ) (raw : List ℚ)
    (h0 : readPairInt (lineAt ls 0) = some (C, F))
    (h1 : (lineAt ls 1).mapM parseFloatTok = some raw)
    (hlen : raw.length < C.toNat * F.toNat) :
    getLPInstance (some ls) = none := by
  have hb := buildMatrix_short raw C.toNat F.toNat hlen
  simp only [getLPInstance, h0, h1, hb]
  (repeat' split) <;> rfl

theorem parse_none_dist_short (ls : FileLines) (C F : ℤ) (raw : List ℚ)
    (h0 : readPairInt (lineAt ls 0) = some (C, F))
    (h6 : (lineAt ls 6).mapM parseFloatTok = some raw)
    (hlen : raw.length < C.toNat * F.toNat) :
    getLPInstance (some ls) = none := by
  have hb := buildMatrix_short raw C.toNat F.toNat hlen
  simp only [getLPInstance, h0, h6, hb]
  (repeat' split) <;> rfl

/-- C4 (amended): the parser never raises past its boundary (it is a
total function into an optional instance) and the result is absent
for: an unreadable file; a first line that fails int parsing or does
not hold exactly two tokens (readPairInt = none); negative declared
dimensions; a failure of float parsing on the token lines with
indices 1, 2, 3, 4, 6; a sixth line (index 5) that fails float
parsing or does not hold exactly two tokens; and matrix token lines
(indices 1 and 6) holding fewer than numCustomers * numFacilities
values.  Wrong token counts on the demand, opening-cost and capacity
lines and surplus tokens on the matrix lines are NOT rejected, so the
claim as stated fails: see the counterexample. -/
theorem C4_error_policy :
    getLPInstance none = none ∧
    (∀ ls, readPairInt (lineAt ls 0) = none → getLPInstance (some ls) = none) ∧
    (∀ ls C F, readPairInt (lineAt ls 0) = some (C, F) → C < 0 ∨ F < 0 →
      getLPInstance (some ls) = none) ∧
    (∀ ls k, k ∈ [1, 2, 3, 4, 6] → (lineAt ls k).mapM parseFloatTok = none →
      getLPInstance (some ls) = none) ∧
    (∀ ls, readPairFloat (lineAt ls 5) = none → getLPInstance (some ls) = none) ∧
    (∀ ls C F raw, readPairInt (lineAt ls 0) = some (C, F) →
      (lineAt ls 1).mapM parseFloatTok = some raw →
      raw.length < C.toNat * F.toNat → getLPInstance (some ls) = none) ∧
    (∀ ls C F raw, readPairInt (lineAt ls 0) = some (C, F) →
      (lineAt ls 6).mapM parseFloatTok = some raw →
      raw.length < C.toNat * F.toNat → getLPInstance (some ls) = none) :=
  ⟨rfl, parse_none_line0, parse_none_neg, parse_none_floats, parse_none_line5,
   parse_none_alloc_short, parse_none_dist_short⟩

/-- C4 witness: a file whose first line holds one unparseable token. -/
theorem C4_witness :
    readPairInt (lineAt [[Tok.badTok]] 0) = none ∧
    getLPInstance (some [[Tok.badTok]]) = none :=
  ⟨rfl, C4_error_policy.2.1 [[Tok.badTok]] rfl⟩

/-- C4 counterexample: badCountFile declares numCustomers = 1 yet its
demand line carries two tokens, a wrong token count, so under the
claim the result had to be absent; the parser nevertheless returns a
populated instance whose demand array length disagrees with the
declared customer count. -/
theorem C4_counterexample :
    getLPInstance (some badCountFile) = some badCountInst ∧
    badCountInst.numCustomers = 1 ∧ badCountInst.demandC.length = 2 :=
  ⟨by decide, rfl, rfl⟩

theorem entry_build (raw : List ℚ) (C F c f : Nat) (hc : c < C) (hf : f < F) :
    entry ((List.range C).map fun i => (List.range F).map fun j => raw.getD (i * F + j) 0) c f
      = raw.getD (c * F + f) 0 := by
  simp [entry, List.getD_eq_getElem?_getD, List.getElem?_map, List.getElem?_range, hc, hf]

/-- parse_eval computes the parser on a file whose consumed lines all
parse and whose matrix lines are long enough. -/
theorem parse_eval (ls : FileLines) (C F : Nat) (v2 v3 v4 v5 v7 : List ℚ) (a b : ℚ)
    (h0 : (lineAt ls 0).mapM parseIntTok = some [(C : ℤ), (F : ℤ)])
    (h1 : (lineAt ls 1).mapM parseFloatTok = some v2) (hl2 : C * F ≤ v2.length)
    (h2 : (lineAt ls 2).mapM parseFloatTok = some v3)
    (h3 : (lineAt ls 3).mapM parseFloatTok = some v4)
    (h4 : (lineAt ls 4).mapM parseFloatTok = some v5)
    (h5 : (lineAt ls 5).mapM parseFloatTok = some [a, b])
    (h6 : (lineAt ls 6).mapM parseFloatTok = some v7) (hl7 : C * F ≤ v7.length) :
    getLPInstance (some ls) = some
      { numCustomers := (C : ℤ)
      , numFacilities := (F : ℤ)
      , allocCostCF := (List.range C).map fun c =>
          (List.range F).map fun f => v2.getD (c * F + f) 0
      , demandC := v3
      , openingCostF := v4
      , capacityF := v5
      , numMaxVehiclePerFacility := (C : ℤ)
      , truckDistLimit := a
      , truckUsageCost := b
      , distanceCF := (List.range C).map fun c =>
          (List.range F).map fun f => v7.getD (c * F + f) 0 } := by
  have hr : readPairInt (lineAt ls 0) = some ((C : ℤ), (F : ℤ)) := by
    unfold readPairInt
    rw [h0]
  have hrf : readPairFloat (lineAt ls 5) = some (a, b) := by
    unfold readPairFloat
    rw [h5]
  have hneg : ¬((C : ℤ) < 0 ∨ (F : ℤ) < 0) := by
    rintro (hx | hx) <;> omega
  have hm2 := buildMatrix_eq v2 C F hl2
  have hm7 := buildMatrix_eq v7 C F hl7
  simp only [getLPInstance, hr, if_neg hneg, Int.toNat_natCast, h1, hm2, h2, h3, h4,
    hrf, h6, hm7]

/-- C3: for every well-formed input file declaring numCustomers = C
and numFacilities = F, parsing succeeds; the allocation-cost and
distance matrices have shape C by F; the entry (c, f) sits at flat
position c * F + f of the flattened matrix; and the row-major
flattening of each matrix is exactly the parsed token sequence of its
input line. -/
theorem C3_roundtrip (ls : FileLines) (C F : Nat) (hwf : wfFile ls C F) :
    ∃ inst, getLPInstance (some ls) = some inst ∧
      inst.allocCostCF.length = C ∧ (∀ row ∈ inst.allocCostCF, row.length = F) ∧
      inst.distanceCF.length = C ∧ (∀ row ∈ inst.distanceCF, row.length = F) ∧
      (lineAt ls 1).mapM parseFloatTok = some inst.allocCostCF.flatten ∧
      (lineAt ls 6).mapM parseFloatTok = some inst.distanceCF.flatten ∧
      (∀ c < C, ∀ f < F, entry inst.allocCostCF c f
          = inst.allocCostCF.flatten.getD (c * F + f) 0) ∧
      (∀ c < C, ∀ f < F, entry inst.distanceCF c f
          = inst.distanceCF.flatten.getD (c * F + f) 0) := by
  obtain ⟨-, h0, ⟨v2, h1, hl2⟩, ⟨v3, h2, -⟩, ⟨v4, h3, -⟩, ⟨v5, h4, -⟩,
    ⟨v6, h5, hl6⟩, ⟨v7, h6, hl7⟩⟩ := hwf
  obtain ⟨a, b, rfl⟩ : ∃ a b, v6 = [a, b] := by
    cases v6 with
    | nil => simp at hl6
    | cons a t =>
      cases t with
      | nil => simp at hl6
      | cons b t2 =>
        cases t2 with
        | nil => exact ⟨a, b, rfl⟩
        | cons c t3 => simp at hl6
  have hflat2 : ((List.range C).map fun c =>
      (List.range F).map fun f => v2.getD (c * F + f) 0).flatten = v2 := by
    rw [flatten_build v2 F C (le_of_eq hl2.symm), ← hl2, List.take_length]
  have hflat7 : ((List.range C).map fun c =>
      (List.range F).map fun f => v7.getD (c * F + f) 0).flatten = v7 := by
    rw [flatten_build v7 F C (le_of_eq hl7.symm), ← hl7, List.take_length]
  refine ⟨_, parse_eval ls C F v2 v3 v4 v5 v7 a b h0 h1 (le_of_eq hl2.symm)
      h2 h3 h4 h5 h6 (le_of_eq hl7.symm), ?_, ?_, ?_, ?_, ?_, ?_, ?_, ?_⟩
  · simp
  · intro row hrow
    simp only [List.mem_map, List.mem_range] at hrow
    obtain ⟨c, -, rfl⟩ := hrow
    simp
  · simp
  · intro row hrow
    simp only [List.mem_map, List.mem_range] at hrow
    obtain ⟨c, -, rfl⟩ := hrow
    simp
  · dsimp only
    rw [hflat2]
    exact h1
  · dsimp only
    rw [hflat7]
    exact h6
  · intro c hc f hf
    dsimp only
    rw [hflat2]
    exact entry_build v2 C F c f hc hf
  · intro c hc f hf
    dsimp only
    rw [hflat7]
    exact entry_build v7 C F c f hc hf

/-- C3 witness: goodFile is well formed with C = 2, F = 2. -/
theorem C3_witness :
    wfFile goodFile 2 2 ∧
    (∃ inst, getLPInstance (some goodFile) = some inst ∧
      inst.allocCostCF.length = 2 ∧ (∀ row ∈ inst.allocCostCF, row.length = 2) ∧
      inst.distanceCF.length = 2 ∧ (∀ row ∈ inst.distanceCF, row.length = 2) ∧
      (lineAt goodFile 1).mapM parseFloatTok = some inst.allocCostCF.flatten ∧
      (lineAt goodFile 6).mapM parseFloatTok = some inst.distanceCF.flatten ∧
      (∀ c < 2, ∀ f < 2, entry inst.allocCostCF c f
          = inst.allocCostCF.flatten.getD (c * 2 + f) 0) ∧
      (∀ c < 2, ∀ f < 2, entry inst.distanceCF c f
          = inst.distanceCF.flatten.getD (c * 2 + f) 0)) := by
  have hwf : wfFile goodFile 2 2 :=
    ⟨rfl, rfl, ⟨_, rfl, rfl⟩, ⟨_, rfl, rfl⟩, ⟨_, rfl, rfl⟩, ⟨_, rfl, rfl⟩,
      ⟨_, rfl, rfl⟩, ⟨_, rfl, rfl⟩⟩
  exact ⟨hwf, C3_roundtrip goodFile 2 2 hwf⟩

/-- C7: for every well-shaped instance with non-negative demands whose
total capacity is strictly below total demand, no assignment in the
variable bounds satisfies both the demand-coverage equalities and the
capacity inequalities, and hence every conforming solver reports no
solution and solve yields the -1 signal. -/
theorem C7_infeasible (inst : LPInstance) (hs : WellShaped inst)
    (hd : ∀ q ∈ inst.demandC, 0 ≤ q)
    (hcap : inst.capacityF.sum < inst.demandC.sum) :
    (∀ x, ¬ (solveModel inst).feasible x) ∧
    (∀ oracle, ConformingOn oracle (solveModel inst) → solve oracle inst = -1) := by
  have key : ∀ x, ¬ (solveModel inst).feasible x := by
    intro x hx
    obtain ⟨-, hsat⟩ := hx
    obtain ⟨hcov, hcapc, -⟩ := (satCons_iff inst x hs).1 hsat
    obtain ⟨-, -, hD, -, hK, -, -⟩ := hs
    have e1 : inst.demandC.sum
        = ∑ c ∈ Finset.range inst.numCustomers.toNat, inst.demandC.getD c 0 := by
      rw [list_sum_getD, hD]
    have e2 : inst.capacityF.sum
        = ∑ f ∈ Finset.range inst.numFacilities.toNat, inst.capacityF.getD f 0 := by
      rw [list_sum_getD, hK]
    have big : inst.demandC.sum ≤ inst.capacityF.sum := by
      rw [e1, e2]
      calc (∑ c ∈ Finset.range inst.numCustomers.toNat, inst.demandC.getD c 0)
          = ∑ c ∈ Finset.range inst.numCustomers.toNat,
              inst.demandC.getD c 0
                * ∑ f ∈ Finset.range inst.numFacilities.toNat, x f c := by
            refine Finset.sum_congr rfl fun c hc => ?_
            rw [hcov c (Finset.mem_range.1 hc), mul_one]
        _ = ∑ c ∈ Finset.range inst.numCustomers.toNat,
              ∑ f ∈ Finset.range inst.numFacilities.toNat,
                x f c * inst.demandC.getD c 0 := by
            refine Finset.sum_congr rfl fun c hc => ?_
            rw [Finset.mul_sum]
            exact Finset.sum_congr rfl fun f hf => mul_comm _ _
        _ = ∑ f ∈ Finset.range inst.numFacilities.toNat,
              ∑ c ∈ Finset.range inst.numCustomers.toNat,
                x f c * inst.demandC.getD c 0 := Finset.sum_comm
        _ ≤ ∑ f ∈ Finset.range inst.numFacilities.toNat, inst.capacityF.getD f 0 :=
            Finset.sum_le_sum fun f hf => hcapc f (Finset.mem_range.1 hf)
    exact absurd hcap (not_lt.2 big)
  refine ⟨key, fun oracle hconf => ?_⟩
  cases ho : oracle (solveModel inst) with
  | none => simp [solve, ho]
  | some v =>
    simp only [ConformingOn, ho] at hconf
    obtain ⟨⟨x, hfx, -⟩, -⟩ := hconf
    exact absurd hfx (key x)

/-- C7 witness: infeasInst has capacity 1 against demand 2. -/
theorem C7_witness :
    WellShaped infeasInst ∧ (∀ q ∈ infeasInst.demandC, 0 ≤ q) ∧
      infeasInst.capacityF.sum < infeasInst.demandC.sum ∧
      ((∀ x, ¬ (solveModel infeasInst).feasible x) ∧
        (∀ oracle, ConformingOn oracle (solveModel infeasInst) →
          solve oracle infeasInst = -1)) :=
  ⟨by decide, by decide, by norm_num [infeasInst],
   C7_infeasible infeasInst (by decide) (by decide) (by norm_num [infeasInst])⟩

/-- C6 counterexample: negCostInst is a parsed instance (from
negCostFile) with a negative allocation cost; every feasible point of
its model has objective exactly -1, so the oracle reporting the
optimum -1 is conforming on this model and reports a solution, yet
solve returns -1 — the sentinel does not occur exactly when the
solver reports no solution. -/
theorem C6_counterexample :
    getLPInstance (some negCostFile) = some negCostInst ∧
    ConformingOn negOracle (solveModel negCostInst) ∧
    (negOracle (solveModel negCostInst)).isSome = true ∧
    solve negOracle negCostInst = -1 := by
  have hobj : ∀ x, (solveModel negCostInst).feasible x →
      (solveModel negCostInst).objective.eval x = -1 := by
    intro x hx
    obtain ⟨-, hsat⟩ := hx
    have hcov := ((satCons_iff negCostInst x (by decide)).1 hsat).1
    have h00 : x 0 0 = 1 := by
      have := hcov 0 (by decide)
      simpa [negCostInst] using this
    rw [objective_eval negCostInst x (by decide)]
    simp [spec_objective, negCostInst, entry, h00]
  have hfeas : (solveModel negCostInst).feasible (fun _ _ => 1) := by
    constructor
    · intro v hv
      simp only [solveModel, List.mem_flatMap, List.mem_map, List.mem_range] at hv
      obtain ⟨f, -, c, -, rfl⟩ := hv
      norm_num
    · rw [satCons_iff negCostInst _ (by decide)]
      refine ⟨fun c hc => ?_, fun f hf => ?_, fun f hf => ?_⟩
      · have hc0 : c = 0 := by simp [negCostInst] at hc; omega
        subst hc0
        simp [negCostInst]
      · have hf0 : f = 0 := by simp [negCostInst] at hf; omega
        subst hf0
        norm_num [negCostInst]
      · have hf0 : f = 0 := by simp [negCostInst] at hf; omega
        subst hf0
        norm_num [negCostInst, entry]
  refine ⟨by decide, ?_, rfl, rfl⟩
  unfold ConformingOn negOracle
  refine ⟨⟨fun _ _ => 1, hfeas, hobj (fun _ _ => 1) hfeas⟩, fun x hx => (hobj x hx).ge⟩

/-- C6 (amended): solve returns the reported objective value when the
solver reports a solution and the sentinel -1 when it reports none,
and no other results are possible; provided the reported value is
never itself -1 (which the §3 non-negativity invariant guarantees,
though not every parsed instance obeys it), returning -1 is
furthermore equivalent to the solver reporting no solution. -/
theorem C6_result_mapping (inst : LPInstance) (oracle : LPModel → Option ℚ)
    (hne : ∀ v, oracle (solveModel inst) = some v → v ≠ -1) :
    (∀ v, oracle (solveModel inst) = some v → solve oracle inst = v) ∧
    (oracle (solveModel inst) = none ↔ solve oracle inst = -1) ∧
    (solve oracle inst = -1 ∨
      ∃ v, oracle (solveModel inst) = some v ∧ solve oracle inst = v) := by
  cases ho : oracle (solveModel inst) with
  | none =>
    have hs : solve oracle inst = -1 := by simp [solve, ho]
    exact ⟨fun v hv => Option.noConfusion hv, by simp [hs], Or.inl hs⟩
  | some v =>
    have hs : solve oracle inst = v := by simp [solve, ho]
    refine ⟨fun w hw => by injection hw with hw; rw [hs, hw],
      ⟨fun h => Option.noConfusion h, fun h => ?_⟩,
      Or.inr ⟨v, rfl, hs⟩⟩
    rw [hs] at h
    exact absurd h (hne v ho)

/-- C6 witness: the oracle reporting no solution on goodInst. -/
theorem C6_witness :
    (∀ v, noneOracle (solveModel goodInst) = some v → v ≠ -1) ∧
    ((∀ v, noneOracle (solveModel goodInst) = some v →
        solve noneOracle goodInst = v) ∧
      (noneOracle (solveModel goodInst) = none ↔ solve noneOracle goodInst = -1) ∧
      (solve noneOracle goodInst = -1 ∨
        ∃ v, noneOracle (solveModel goodInst) = some v ∧
          solve noneOracle goodInst = v)) :=
  ⟨fun v hv => Option.noConfusion hv,
   C6_result_mapping goodInst noneOracle (fun v hv => Option.noConfusion hv)⟩

/-- C10: for every file whose parse is absent, constructing the solver
still succeeds and stores the absent instance, and the subsequent
solve call ends in the attribute access error, never in the sentinel
-1 nor any other numeric result. -/
theorem C10_absent_instance (file : Option FileLines)
    (oracle : LPModel → Option ℚ) (h : getLPInstance file = none) :
    (mkSolver file).lpinst = none ∧
    runSolve oracle (mkSolver file) = .attributeError ∧
    ∀ q, runSolve oracle (mkSolver file) ≠ .result q := by
  refine ⟨by simp [mkSolver, h], by simp [runSolve, mkSolver, h], fun q => ?_⟩
  simp [runSolve, mkSolver, h]

/-- C10 witness: the unreadable file. -/
theorem C10_witness :
    getLPInstance none = none ∧
    ((mkSolver none).lpinst = none ∧
      runSolve noneOracle (mkSolver none) = .attributeError ∧
      ∀ q, runSolve noneOracle (mkSolver none) ≠ .result q) :=
  ⟨rfl, C10_absent_instance none noneOracle rfl⟩

end FacilityLP
